import Mathlib

/-!
Shallow embedding of the Store API (FastAPI + MongoDB product CRUD service).

The source is a single Python file containing the modules
`app/database.py`, `app/models.py`, `app/schemas.py`, `app/crud.py`,
`app/routers/products.py` and `app/main.py`.

Modelling choices:
* A MongoDB `ObjectId` value is a `Nat` (its 96-bit numeric value); the
  constructor `ObjectId(id)` applied to a string accepts exactly 24
  hexadecimal characters and otherwise raises `bson.errors.InvalidId`.
  We model the fallible constructor as `parseObjectId : String → Option Nat`,
  and an uncaught raise as the `Except.error` branch of the crud functions.
* A stored document carries `_id` plus the four product fields; since a
  `$set` update can write JSON `null` into any field, each stored field is
  an `Option` (with `none` = BSON null / absent).
* Python `float` prices are modelled as `Rat`.
* The collection is a list of documents plus a counter supplying the next
  store-assigned `_id`; `find_one`, `insert_one`, `update_one` and
  `delete_one` become the corresponding list operations (`delete_one`
  removes the first matching document, `update_one` applies `$set` to
  matching documents).
* Pydantic validation of the request body is modelled over typed payload
  records: a field of a wrong JSON type is not representable, while the
  representable checks (required fields, `gt=0` bound, defaults) are
  modelled exactly as declared by the schema classes.
-/

namespace StoreApi

/-- Whether a character is an ASCII hexadecimal digit, as accepted by
`bson.ObjectId` for its 24-character string form. -/
def isHexChar (c : Char) : Bool :=
  (decide ('0' ≤ c) && decide (c ≤ '9')) ||
  (decide ('a' ≤ c) && decide (c ≤ 'f')) ||
  (decide ('A' ≤ c) && decide (c ≤ 'F'))

/-- Numeric value of a hexadecimal digit character. -/
def hexVal (c : Char) : Nat :=
  if decide ('0' ≤ c) && decide (c ≤ '9') then c.toNat - 48
  else if decide ('a' ≤ c) && decide (c ≤ 'f') then c.toNat - 87
  else c.toNat - 55

/-- Model of `bson.ObjectId(id)` applied to a string: succeeds (with the
numeric value of the id) exactly when the string is 24 hex characters,
otherwise the constructor raises `InvalidId`, modelled as `none`. -/
def parseObjectId (s : String) : Option Nat :=
  if s.data.length = 24 ∧ s.data.all isHexChar then
    some (s.data.foldl (fun a c => 16 * a + hexVal c) 0)
  else none

/-- Lowercase hexadecimal digit character for a value below 16. -/
def hexDigitChar (d : Nat) : Char :=
  if d < 10 then Char.ofNat (48 + d) else Char.ofNat (87 + d)

/-- Little-endian list of the `k` low hexadecimal digits of `n`. -/
def hexDigitsLE : Nat → Nat → List Nat
  | 0, _ => []
  | k + 1, n => n % 16 :: hexDigitsLE k (n / 16)

/-- Model of `str(object_id)`: the 24-character lowercase hex form. -/
def oidToString (n : Nat) : String :=
  String.mk (((hexDigitsLE 24 n).reverse).map hexDigitChar)

/-- A raw document of the `products` collection: the store-assigned `_id`
plus the four product fields.  Each field holds `Option` because a partial
update may `$set` a field to JSON null. -/
structure StoredDoc where
  oid : Nat
  name : Option String
  description : Option String
  price : Option Rat
  in_stock : Option Bool
deriving DecidableEq, Repr

/-- The state of the `products` collection: its documents, plus the next
fresh `_id` the store will assign (MongoDB guarantees assigned ids are
unique and never reused). -/
structure StoreState where
  docs : List StoredDoc
  nextOid : Nat
deriving DecidableEq, Repr

/-- Outward product representation produced by `product_helper`: the dict
with the stringified id and the four fields copied from the document. -/
structure ProductOut where
  id : String
  name : Option String
  description : Option String
  price : Option Rat
  in_stock : Option Bool
deriving DecidableEq, Repr

/-- Embedding of `product_helper(product)`: string form of the internal
`_id` and the four fields copied verbatim (`product.get("description")`
yields null when the key is absent, which `Option` already captures). -/
def product_helper (d : StoredDoc) : ProductOut :=
  { id := oidToString d.oid
    name := d.name
    description := d.description
    price := d.price
    in_stock := d.in_stock }

/-- A validated create body (`ProductSchema` after validation): `name` and
`price` are present, `description` may be null, `in_stock` has its default
applied. -/
structure Product where
  name : String
  description : Option String
  price : Rat
  in_stock : Bool
deriving DecidableEq, Repr

/-- A raw create request body as far as the typed model can represent it:
each field is present (`some`) or missing (`none`). -/
structure CreatePayload where
  name : Option String
  description : Option String
  price : Option Rat
  in_stock : Option Bool
deriving DecidableEq, Repr

/-- Embedding of pydantic validation of `ProductSchema`:
`name : str = Field(...)` (required), `description : Optional[str] =
Field(None)`, `price : float = Field(..., gt=0)` (required, strictly
positive), `in_stock : bool = Field(default=True)`.  Returns the validated
record or `none` on a validation error (422). -/
def validateCreate (p : CreatePayload) : Option Product :=
  match p.name, p.price with
  | some n, some pr =>
      if 0 < pr then
        some { name := n, description := p.description, price := pr,
               in_stock := p.in_stock.getD true }
      else none
  | _, _ => none

/-- An update request body after `product.dict(exclude_unset=True)`: for
each field, `none` means the caller did not send the key at all, while
`some v` means the key was sent with value `v` — where `v` itself is an
`Option`, `some x` a proper value and `none` an explicit JSON null. -/
structure UpdateData where
  name : Option (Option String)
  description : Option (Option String)
  price : Option (Option Rat)
  in_stock : Option (Option Bool)
deriving DecidableEq, Repr

/-- Embedding of pydantic validation of `ProductUpdateSchema`: all four
fields are `Optional` with no constraint (`name : Optional[str]`,
`description : Optional[str]`, `price : Optional[float]`,
`in_stock : Optional[bool]`), so every type-correct body — including
explicit nulls and non-positive prices — validates. -/
def validateUpdate (_d : UpdateData) : Bool := true

/-- Number of keys in the dict `product.dict(exclude_unset=True)`, i.e.
`len(data)` inside `update_product`. -/
def UpdateData.size (d : UpdateData) : Nat :=
  (if d.name.isSome then 1 else 0) + (if d.description.isSome then 1 else 0) +
  (if d.price.isSome then 1 else 0) + (if d.in_stock.isSome then 1 else 0)

/-- Effect of MongoDB `update_one({_id: oid}, {$set: data})` on one
document: each key present in `data` overwrites the stored field with the
sent value (possibly null); absent keys leave the field untouched. -/
def applyMerge (data : UpdateData) (d : StoredDoc) : StoredDoc :=
  { d with
    name := data.name.getD d.name
    description := data.description.getD d.description
    price := data.price.getD d.price
    in_stock := data.in_stock.getD d.in_stock }

/-- Comparison used by `find().sort("name", 1)`: ascending by the `name`
field, with BSON null ordering before every string. -/
def nameLE (a b : StoredDoc) : Bool :=
  match a.name, b.name with
  | none, _ => true
  | some _, none => false
  | some x, some y => decide (x ≤ y)

/-- Same comparison on the outward records (the mapper copies `name`). -/
def outNameLE (a b : ProductOut) : Bool :=
  match a.name, b.name with
  | none, _ => true
  | some _, none => false
  | some x, some y => decide (x ≤ y)

/-- Embedding of `retrieve_products()`: fetch all documents sorted by
`name` ascending and map each through `product_helper`. -/
def retrieve_products (st : StoreState) : List ProductOut :=
  (st.docs.mergeSort nameLE).map product_helper

/-- Embedding of `retrieve_product(id)`.  `ObjectId(id)` raising on an
unparseable string is the `Except.error` branch; otherwise `find_one`
yields the first document with that `_id` (or nothing), mapped through
`product_helper`. -/
def retrieve_product (id : String) (st : StoreState) :
    Except Unit (Option ProductOut) :=
  match parseObjectId id with
  | none => .error ()
  | some oid => .ok ((st.docs.find? (fun d => d.oid == oid)).map product_helper)

/-- Embedding of `add_product(product_data)`: insert the validated fields
as a new document under the store-assigned fresh `_id`, re-fetch that
document with `find_one`, and map it.  (`product_helper(None)` would raise
if the re-fetch missed, hence the `Option` result.) -/
def add_product (p : Product) (st : StoreState) :
    Option ProductOut × StoreState :=
  let doc : StoredDoc :=
    { oid := st.nextOid, name := some p.name, description := p.description,
      price := some p.price, in_stock := some p.in_stock }
  let docs1 := st.docs ++ [doc]
  ((docs1.find? (fun d => d.oid == st.nextOid)).map product_helper,
    { docs := docs1, nextOid := st.nextOid + 1 })

/-- Embedding of `update_product(id, data)`: empty dict returns `False`
before the id is parsed; then `ObjectId(id)` may raise (`Except.error`);
then `find_one` decides existence; on a hit, `update_one` issues the
`$set` merge and — the `UpdateResult` object being always truthy — the
function returns `True`. -/
def update_product (id : String) (data : UpdateData) (st : StoreState) :
    Except Unit (Bool × StoreState) :=
  if data.size < 1 then .ok (false, st)
  else
    match parseObjectId id with
    | none => .error ()
    | some oid =>
      match st.docs.find? (fun d => d.oid == oid) with
      | some _ =>
          .ok (true,
            { docs := st.docs.map
                (fun d => if d.oid == oid then applyMerge data d else d),
              nextOid := st.nextOid })
      | none => .ok (false, st)

/-- Embedding of `delete_product(id)`: `ObjectId(id)` may raise; then
`find_one` decides existence; on a hit `delete_one` removes the first
matching document and the function returns `True`. -/
def delete_product (id : String) (st : StoreState) :
    Except Unit (Bool × StoreState) :=
  match parseObjectId id with
  | none => .error ()
  | some oid =>
    match st.docs.find? (fun d => d.oid == oid) with
    | some _ =>
        .ok (true, { docs := st.docs.eraseP (fun d => d.oid == oid),
                     nextOid := st.nextOid })
    | none => .ok (false, st)

/-- Router result of `GET /products/id`: either the record (200) or the
`HTTPException(404)`. -/
inductive GetResult where
  | found (p : ProductOut)
  | notFound
deriving DecidableEq, Repr

/-- Embedding of the router handler `get_product(id)`: a falsy repository
result becomes the 404, a raise propagates. -/
def get_product (id : String) (st : StoreState) : Except Unit GetResult :=
  match retrieve_product id st with
  | .error e => .error e
  | .ok (some p) => .ok (.found p)
  | .ok none => .ok .notFound

/-- Embedding of the router handler `update_existing_product(id, product)`:
it forwards `product.dict(exclude_unset=True)` — which `UpdateData`
already represents — to `update_product`. -/
def update_existing_product (id : String) (data : UpdateData)
    (st : StoreState) : Except Unit (Bool × StoreState) :=
  update_product id data st

end StoreApi

namespace StoreApi

lemma hexDigitsLE_length (k n : Nat) : (hexDigitsLE k n).length = k := by
  induction k generalizing n with
  | zero => rfl
  | succ k ih => simp [hexDigitsLE, ih]

lemma hexDigitsLE_lt (k n : Nat) : ∀ d ∈ hexDigitsLE k n, d < 16 := by
  induction k generalizing n with
  | zero => intro d hd; simp [hexDigitsLE] at hd
  | succ k ih =>
    intro d hd
    rcases List.mem_cons.mp hd with h | h
    · subst h; omega
    · exact ih (n / 16) d h

lemma hexVal_hexDigitChar (d : Nat) (h : d < 16) :
    hexVal (hexDigitChar d) = d := by
  interval_cases d <;> decide

lemma isHexChar_hexDigitChar (d : Nat) (h : d < 16) :
    isHexChar (hexDigitChar d) = true := by
  interval_cases d <;> decide

lemma foldl_hexDigits (k n : Nat) :
    ((hexDigitsLE k n).reverse.map hexDigitChar).foldl
      (fun a c => 16 * a + hexVal c) 0 = n % 16 ^ k := by
  induction k generalizing n with
  | zero => simp [hexDigitsLE, Nat.mod_one]
  | succ k ih =>
    have hd : hexVal (hexDigitChar (n % 16)) = n % 16 :=
      hexVal_hexDigitChar (n % 16) (by omega)
    have h16 : (16 : Nat) ^ (k + 1) = 16 * 16 ^ k := by
      rw [pow_succ, Nat.mul_comm]
    have hmm : n % (16 * 16 ^ k) = n % 16 + 16 * (n / 16 % 16 ^ k) :=
      Nat.mod_mul
    simp only [hexDigitsLE, List.reverse_cons, List.map_append,
      List.map_cons, List.map_nil, List.foldl_append, List.foldl_cons,
      List.foldl_nil, ih, hd, h16, hmm]
    omega

lemma oidToString_data (n : Nat) :
    (oidToString n).data = (hexDigitsLE 24 n).reverse.map hexDigitChar := rfl

lemma parse_oidToString (n : Nat) (h : n < 16 ^ 24) :
    parseObjectId (oidToString n) = some n := by
  have hcond : (oidToString n).data.length = 24 ∧
      (oidToString n).data.all isHexChar := by
    rw [oidToString_data]
    constructor
    · simp [hexDigitsLE_length]
    · rw [List.all_eq_true]
      intro c hc
      rcases List.mem_map.mp hc with ⟨d, hd, rfl⟩
      exact isHexChar_hexDigitChar d
        (hexDigitsLE_lt 24 n d (List.mem_reverse.mp hd))
  unfold parseObjectId
  rw [if_pos hcond, oidToString_data, foldl_hexDigits, Nat.mod_eq_of_lt h]

lemma oidToString_inj {m n : Nat} (hm : m < 16 ^ 24) (hn : n < 16 ^ 24)
    (h : oidToString m = oidToString n) : m = n := by
  have h1 := parse_oidToString m hm
  rw [h, parse_oidToString n hn] at h1
  simpa using h1.symm

lemma oidToString_ne_empty (n : Nat) : oidToString n ≠ "" := by
  intro h
  have hl : (oidToString n).data.length = 24 := by
    rw [oidToString_data]; simp [hexDigitsLE_length]
  rw [h] at hl
  exact absurd hl (by decide)

lemma applyMerge_oid (data : UpdateData) (d : StoredDoc) :
    (applyMerge data d).oid = d.oid := rfl

lemma find?_eraseP_eq_none {oid : Nat} {l : List StoredDoc}
    (huniq : l.Pairwise (fun a b => a.oid ≠ b.oid)) :
    (l.eraseP (fun d => d.oid == oid)).find? (fun d => d.oid == oid)
      = none := by
  induction l with
  | nil => rfl
  | cons a t ih =>
    rcases List.pairwise_cons.mp huniq with ⟨ha, ht⟩
    by_cases h : a.oid = oid
    · rw [List.eraseP_cons_of_pos (by simpa using h)]
      rw [List.find?_eq_none]
      intro x hx hbeq
      have hx2 : x.oid = oid := by simpa using hbeq
      exact ha x hx (h.trans hx2.symm)
    · rw [List.eraseP_cons_of_neg (by simpa using h),
        List.find?_cons_of_neg _ (by simpa using h)]
      exact ih ht

lemma eq_of_mem_oid {oid : Nat} {l : List StoredDoc} {doc : StoredDoc}
    (huniq : l.Pairwise (fun a b => a.oid ≠ b.oid))
    (hfind : l.find? (fun d => d.oid == oid) = some doc) :
    ∀ d ∈ l, d.oid = oid → d = doc := by
  induction l with
  | nil => simp at hfind
  | cons a t ih =>
    rcases List.pairwise_cons.mp huniq with ⟨ha, ht⟩
    intro d hd hdo
    by_cases h : a.oid = oid
    · have hpa : ((fun x : StoredDoc => x.oid == oid) a) = true := by
        simpa using h
      rw [List.find?_cons_of_pos t hpa] at hfind
      have h2 : a = doc := by simpa using hfind
      rcases List.mem_cons.mp hd with rfl | hdt
      · exact h2
      · exact absurd (h.trans hdo.symm) (ha d hdt)
    · rw [List.find?_cons_of_neg t (by simpa using h)] at hfind
      rcases List.mem_cons.mp hd with rfl | hdt
      · exact absurd hdo h
      · exact ih ht hfind d hdt hdo

lemma find?_map_update {oid : Nat} {data : UpdateData}
    {l : List StoredDoc} {doc : StoredDoc}
    (hfind : l.find? (fun d => d.oid == oid) = some doc) :
    (l.map (fun d => if d.oid == oid then applyMerge data d else d)).find?
      (fun d => d.oid == oid) = some (applyMerge data doc) := by
  induction l with
  | nil => simp at hfind
  | cons a t ih =>
    by_cases h : a.oid = oid
    · have hpa : ((fun x : StoredDoc => x.oid == oid) a) = true := by
        simpa using h
      rw [List.find?_cons_of_pos t hpa] at hfind
      have h2 : a = doc := by simpa using hfind
      subst h2
      simp only [List.map_cons, if_pos hpa]
      exact List.find?_cons_of_pos _ (by simpa [applyMerge_oid] using h)
    · rw [List.find?_cons_of_neg t (by simpa using h)] at hfind
      simp only [List.map_cons,
        if_neg (show ¬ ((a.oid == oid) = true) by simpa using h)]
      rw [List.find?_cons_of_neg _ (by simpa using h)]
      exact ih hfind

lemma map_update_id {oid : Nat} {data : UpdateData} {l : List StoredDoc}
    {doc : StoredDoc}
    (huniq : l.Pairwise (fun a b => a.oid ≠ b.oid))
    (hfind : l.find? (fun d => d.oid == oid) = some doc)
    (hnoop : applyMerge data doc = doc) :
    l.map (fun d => if d.oid == oid then applyMerge data d else d) = l := by
  have h1 : ∀ d ∈ l,
      (if d.oid == oid then applyMerge data d else d) = id d := by
    intro d hd
    by_cases h : d.oid = oid
    · have h2 : d = doc := eq_of_mem_oid huniq hfind d hd h
      subst h2
      simp [h, hnoop]
    · simp [h]
  rw [List.map_congr_left h1, List.map_id]

end StoreApi

namespace StoreApi

/-- C1: the claim says an id string that fails to parse as an `ObjectId` is
treated by get, update and delete as not-found (404 / `False`) and never
crashes.  On the code, `ObjectId(id)` raises `InvalidId` uncaught in all
three repository functions, so the request crashes (HTTP 500) instead:
at id `"abc"` each operation hits the raise branch, and the router's get
propagates the raise rather than producing the 404. -/
theorem c1_unparseable_id_raises :
    retrieve_product "abc" ⟨[⟨0, some "Widget", none, some 5, some true⟩], 1⟩
      = .error () ∧
    update_product "abc" ⟨none, none, some (some 1), none⟩
      ⟨[⟨0, some "Widget", none, some 5, some true⟩], 1⟩ = .error () ∧
    delete_product "abc" ⟨[⟨0, some "Widget", none, some 5, some true⟩], 1⟩
      = .error () ∧
    get_product "abc" ⟨[⟨0, some "Widget", none, some 5, some true⟩], 1⟩
      = .error () :=
  ⟨rfl, rfl, rfl, rfl⟩

/-- C2: the claim says validation rejects every create or update payload
with `price ≤ 0`.  `ProductUpdateSchema` declares `price : Optional[float]`
with no bound, so the update body sending `price = -1` validates, reaches
`update_product`, and the merge persists a record whose stored price is
`-1 ≤ 0` — refuting the invariant. -/
theorem c2_update_accepts_nonpositive_price :
    validateUpdate ⟨none, none, some (some (-1)), none⟩ = true ∧
    update_existing_product "000000000000000000000000"
        ⟨none, none, some (some (-1)), none⟩
        ⟨[⟨0, some "Widget", none, some 5, some true⟩], 1⟩
      = .ok (true, ⟨[⟨0, some "Widget", none, some (-1), some true⟩], 1⟩) ∧
    ¬ (0 : Rat) < (-1 : Rat) :=
  ⟨rfl, rfl, by norm_num⟩

/-- C3 counterexample: the claim says a create payload whose `name` is the
empty string is rejected, but `ProductSchema` only marks `name` required
(`Field(...)`) with no non-emptiness constraint, so the empty string is
accepted and the record is created with `name = ""`. -/
theorem c3_empty_name_accepted :
    validateCreate ⟨some "", none, some 1, none⟩ = some ⟨"", none, 1, true⟩ :=
  rfl

/-- C3 amended: `name` is required — a create payload with `name` missing
is rejected by the create validation shape — but the empty string is not
rejected. -/
theorem c3_name_required (p : CreatePayload) (h : p.name = none) :
    validateCreate p = none := by
  cases hp : p.price <;> simp [validateCreate, h, hp]

theorem c3_name_required_witness :
    validateCreate ⟨none, none, some 1, none⟩ = none :=
  c3_name_required ⟨none, none, some 1, none⟩ rfl

/-- C4: updating with an empty field set returns `False` before the id is
even parsed: no write is issued and the store state is returned unchanged,
so any existing record with that id keeps its value. -/
theorem c4_empty_update_noop (id : String) (data : UpdateData)
    (st : StoreState) (h : data.size = 0) :
    update_product id data st = .ok (false, st) := by
  unfold update_product
  rw [if_pos (by omega)]

theorem c4_empty_update_noop_witness :
    update_product "000000000000000000000000" ⟨none, none, none, none⟩
      ⟨[⟨0, some "Widget", none, some 5, some true⟩], 1⟩
    = .ok (false, ⟨[⟨0, some "Widget", none, some 5, some true⟩], 1⟩) :=
  c4_empty_update_noop "000000000000000000000000" ⟨none, none, none, none⟩
    ⟨[⟨0, some "Widget", none, some 5, some true⟩], 1⟩ rfl

end StoreApi

namespace StoreApi

/-- C5: for an existing record and a non-empty partial payload, update
overwrites exactly the supplied fields: the router forwards only the keys
the caller set (`exclude_unset`), the repository issues the `$set` merge on
the matching document, and on the merged record each supplied field takes
the sent value while each omitted field keeps its prior value. -/
theorem c5_partial_merge (id : String) (oid : Nat) (st : StoreState)
    (data : UpdateData) (doc : StoredDoc)
    (hpar : parseObjectId id = some oid)
    (hsz : 0 < data.size)
    (hfind : st.docs.find? (fun d => d.oid == oid) = some doc) :
    update_existing_product id data st =
      .ok (true,
        ⟨st.docs.map (fun d => if d.oid == oid then applyMerge data d else d),
         st.nextOid⟩) ∧
    (data.name = none → (applyMerge data doc).name = doc.name) ∧
    (data.description = none →
      (applyMerge data doc).description = doc.description) ∧
    (data.price = none → (applyMerge data doc).price = doc.price) ∧
    (data.in_stock = none → (applyMerge data doc).in_stock = doc.in_stock) ∧
    (∀ v, data.name = some v → (applyMerge data doc).name = v) ∧
    (∀ v, data.description = some v → (applyMerge data doc).description = v) ∧
    (∀ v, data.price = some v → (applyMerge data doc).price = v) ∧
    (∀ v, data.in_stock = some v → (applyMerge data doc).in_stock = v) := by
  have hsz' : ¬ data.size < 1 := by omega
  refine ⟨?_, ?_, ?_, ?_, ?_, ?_, ?_, ?_, ?_⟩
  · simp only [update_existing_product, update_product, if_neg hsz', hpar,
      hfind]
  · intro h; simp [applyMerge, h]
  · intro h; simp [applyMerge, h]
  · intro h; simp [applyMerge, h]
  · intro h; simp [applyMerge, h]
  · intro v h; simp [applyMerge, h]
  · intro v h; simp [applyMerge, h]
  · intro v h; simp [applyMerge, h]
  · intro v h; simp [applyMerge, h]

theorem c5_partial_merge_witness :
    update_existing_product "000000000000000000000000"
      ⟨none, none, some (some 9), none⟩
      ⟨[⟨0, some "Widget", none, some 5, some true⟩], 1⟩
    = .ok (true, ⟨[⟨0, some "Widget", none, some 9, some true⟩], 1⟩) :=
  (c5_partial_merge "000000000000000000000000" 0
    ⟨[⟨0, some "Widget", none, some 5, some true⟩], 1⟩
    ⟨none, none, some (some 9), none⟩
    ⟨0, some "Widget", none, some 5, some true⟩
    rfl (by decide) rfl).1

/-- C6: with a parseable id and unique `_id`s in the collection, delete of
an existing record returns `True` and removes it (the first — only —
matching document is erased), a subsequent get on the same id yields the
404 and a subsequent delete returns `False`; delete of an id matching no
document returns `False` and leaves the state unchanged. -/
theorem c6_delete (id : String) (oid : Nat) (st : StoreState)
    (doc : StoredDoc)
    (hpar : parseObjectId id = some oid)
    (huniq : st.docs.Pairwise (fun a b => a.oid ≠ b.oid))
    (hfind : st.docs.find? (fun d => d.oid == oid) = some doc) :
    delete_product id st =
      .ok (true, ⟨st.docs.eraseP (fun d => d.oid == oid), st.nextOid⟩) ∧
    (st.docs.eraseP (fun d => d.oid == oid)).find? (fun d => d.oid == oid)
      = none ∧
    get_product id ⟨st.docs.eraseP (fun d => d.oid == oid), st.nextOid⟩
      = .ok .notFound ∧
    delete_product id ⟨st.docs.eraseP (fun d => d.oid == oid), st.nextOid⟩
      = .ok (false, ⟨st.docs.eraseP (fun d => d.oid == oid), st.nextOid⟩) ∧
    (∀ st2 : StoreState, st2.docs.find? (fun d => d.oid == oid) = none →
      delete_product id st2 = .ok (false, st2)) := by
  have hnone := @find?_eraseP_eq_none oid st.docs huniq
  refine ⟨?_, hnone, ?_, ?_, ?_⟩
  · simp only [delete_product, hpar, hfind]
  · simp only [get_product, retrieve_product, hpar, hnone]
    rfl
  · simp only [delete_product, hpar, hnone]
  · intro st2 h2
    simp only [delete_product, hpar, h2]

theorem c6_delete_witness :
    delete_product "000000000000000000000000"
      ⟨[⟨0, some "Widget", none, some 5, some true⟩], 1⟩
    = .ok (true, ⟨[], 1⟩) :=
  (c6_delete "000000000000000000000000" 0
    ⟨[⟨0, some "Widget", none, some 5, some true⟩], 1⟩
    ⟨0, some "Widget", none, some 5, some true⟩
    rfl (by simp) rfl).1

end StoreApi

namespace StoreApi

/-- C7: for every payload accepted by create validation, under the store
invariants that the next assigned `_id` is fresh (greater than every stored
`_id`) and within the 96-bit ObjectId range, create returns the record
whose four fields equal the validated input exactly — with `description`
defaulting to null and `in_stock` defaulting to true when omitted — and
whose id string is non-empty and distinct from the id of every previously
created record. -/
theorem c7_create (cp : CreatePayload) (p : Product) (st : StoreState)
    (hval : validateCreate cp = some p)
    (hfresh : ∀ d ∈ st.docs, d.oid < st.nextOid)
    (hbound : st.nextOid < 16 ^ 24) :
    ∃ rec : ProductOut,
      add_product p st =
        (some rec,
          ⟨st.docs ++ [⟨st.nextOid, some p.name, p.description, some p.price,
            some p.in_stock⟩], st.nextOid + 1⟩) ∧
      rec.name = some p.name ∧
      rec.description = p.description ∧
      rec.price = some p.price ∧
      rec.in_stock = some p.in_stock ∧
      cp.name = some p.name ∧
      p.description = cp.description ∧
      cp.price = some p.price ∧
      p.in_stock = cp.in_stock.getD true ∧
      rec.id ≠ "" ∧
      (∀ d ∈ st.docs, rec.id ≠ oidToString d.oid) := by
  have hmiss : st.docs.find? (fun d => d.oid == st.nextOid) = none := by
    rw [List.find?_eq_none]
    intro d hd hbeq
    have : d.oid = st.nextOid := by simpa using hbeq
    exact absurd this (Nat.ne_of_lt (hfresh d hd))
  have hfields : cp.name = some p.name ∧ p.description = cp.description ∧
      cp.price = some p.price ∧ p.in_stock = cp.in_stock.getD true := by
    unfold validateCreate at hval
    cases hn : cp.name <;> cases hp : cp.price <;> rw [hn, hp] at hval <;>
      simp at hval
    rcases hval with ⟨hpr, hv⟩
    rw [← hv]
    exact ⟨rfl, rfl, rfl, rfl⟩
  refine ⟨product_helper ⟨st.nextOid, some p.name, p.description,
    some p.price, some p.in_stock⟩, ?_, rfl, rfl, rfl, rfl, hfields.1,
    hfields.2.1, hfields.2.2.1, hfields.2.2.2, oidToString_ne_empty _, ?_⟩
  · unfold add_product
    dsimp only
    rw [List.find?_append, hmiss, Option.none_or,
      List.find?_cons_of_pos _ (by simp)]
    rfl
  · intro d hd h
    have hdb : d.oid < 16 ^ 24 := lt_trans (hfresh d hd) hbound
    have : st.nextOid = d.oid := oidToString_inj hbound hdb h
    exact absurd this.symm (Nat.ne_of_lt (hfresh d hd))

theorem c7_create_witness :
    ∃ rec : ProductOut,
      add_product ⟨"Gadget", none, 3, true⟩
          ⟨[⟨0, some "Widget", none, some 5, some true⟩], 1⟩
        = (some rec,
            ⟨[⟨0, some "Widget", none, some 5, some true⟩,
              ⟨1, some "Gadget", none, some 3, some true⟩], 2⟩) ∧
      rec.name = some "Gadget" ∧ rec.id ≠ "" := by
  obtain ⟨rec, h1, h2, _, _, _, _, _, _, _, h10, _⟩ :=
    c7_create ⟨some "Gadget", none, some 3, none⟩ ⟨"Gadget", none, 3, true⟩
      ⟨[⟨0, some "Widget", none, some 5, some true⟩], 1⟩
      rfl (by simp) (by norm_num)
  exact ⟨rec, h1, h2, h10⟩

end StoreApi

namespace StoreApi

/-- C8: list fetches all stored documents ordered by `name` ascending and
maps each through the Data Mapper: the returned sequence is a permutation
of the mapped collection, it is sorted ascending by `name`, and the empty
collection yields the empty sequence rather than an error. -/
theorem c8_list_sorted (st : StoreState) :
    (retrieve_products st).Perm (st.docs.map product_helper) ∧
    (retrieve_products st).Pairwise (fun a b => outNameLE a b = true) ∧
    retrieve_products ⟨[], 0⟩ = [] := by
  refine ⟨?_, ?_, by simp [retrieve_products]⟩
  · exact (List.mergeSort_perm st.docs nameLE).map product_helper
  · have htrans : ∀ a b c : StoredDoc, nameLE a b = true →
        nameLE b c = true → nameLE a c = true := by
      rintro ⟨_, an, _, _, _⟩ ⟨_, bn, _, _, _⟩ ⟨_, cn, _, _, _⟩ hab hbc
      cases an <;> cases bn <;> cases cn <;> simp [nameLE] at *
      exact le_trans hab hbc
    have htot : ∀ a b : StoredDoc, (nameLE a b || nameLE b a) = true := by
      rintro ⟨_, an, _, _, _⟩ ⟨_, bn, _, _, _⟩
      cases an <;> cases bn <;> simp [nameLE]
      exact le_total _ _
    have hs := List.sorted_mergeSort htrans htot st.docs
    exact List.Pairwise.map product_helper (fun a b hab => hab) hs

end StoreApi

namespace StoreApi

/-- C9: the update success signal depends only on the record existing and
the merge being issued: with unique `_id`s, an update whose merge leaves
the found document exactly as it was (every supplied field set to its
current value) still returns `True` — and the state is unchanged. -/
theorem c9_noop_update_success (id : String) (oid : Nat) (st : StoreState)
    (data : UpdateData) (doc : StoredDoc)
    (hpar : parseObjectId id = some oid)
    (hsz : 0 < data.size)
    (huniq : st.docs.Pairwise (fun a b => a.oid ≠ b.oid))
    (hfind : st.docs.find? (fun d => d.oid == oid) = some doc)
    (hnoop : applyMerge data doc = doc) :
    update_product id data st = .ok (true, st) := by
  have hsz' : ¬ data.size < 1 := by omega
  have hm := @map_update_id oid data st.docs doc huniq hfind hnoop
  simp only [update_product, if_neg hsz', hpar, hfind, hm]

theorem c9_noop_update_success_witness :
    update_product "000000000000000000000000"
      ⟨none, none, some (some 5), none⟩
      ⟨[⟨0, some "Widget", none, some 5, some true⟩], 1⟩
    = .ok (true, ⟨[⟨0, some "Widget", none, some 5, some true⟩], 1⟩) :=
  c9_noop_update_success "000000000000000000000000" 0
    ⟨[⟨0, some "Widget", none, some 5, some true⟩], 1⟩
    ⟨none, none, some (some 5), none⟩
    ⟨0, some "Widget", none, some 5, some true⟩
    rfl (by decide) (by simp) rfl rfl

/-- C10: an update payload that explicitly sends a field as JSON null is
accepted by `ProductUpdateSchema` (all fields `Optional`, no constraint),
the key survives `exclude_unset=True`, counts toward the non-empty check,
and the `$set` merge overwrites the stored field with null — including the
required fields `name`, `price` and `in_stock`. -/
theorem c10_null_overwrites (id : String) (oid : Nat) (st : StoreState)
    (data : UpdateData) (doc : StoredDoc)
    (hpar : parseObjectId id = some oid)
    (hfind : st.docs.find? (fun d => d.oid == oid) = some doc)
    (hn : data.name = some none)
    (hp : data.price = some none)
    (hs : data.in_stock = some none) :
    validateUpdate data = true ∧
    update_existing_product id data st =
      .ok (true,
        ⟨st.docs.map (fun d => if d.oid == oid then applyMerge data d else d),
         st.nextOid⟩) ∧
    (st.docs.map (fun d => if d.oid == oid then applyMerge data d else d)).find?
        (fun d => d.oid == oid) = some (applyMerge data doc) ∧
    (applyMerge data doc).name = none ∧
    (applyMerge data doc).price = none ∧
    (applyMerge data doc).in_stock = none := by
  have h1 : data.name.isSome = true := by rw [hn]; rfl
  have hsz' : ¬ data.size < 1 := by
    unfold UpdateData.size
    rw [h1, if_pos rfl]
    omega
  refine ⟨rfl, ?_, find?_map_update hfind, ?_, ?_, ?_⟩
  · simp only [update_existing_product, update_product, if_neg hsz', hpar,
      hfind]
  · simp [applyMerge, hn]
  · simp [applyMerge, hp]
  · simp [applyMerge, hs]

theorem c10_null_overwrites_witness :
    update_existing_product "000000000000000000000000"
      ⟨some none, none, some none, some none⟩
      ⟨[⟨0, some "Widget", none, some 5, some true⟩], 1⟩
    = .ok (true, ⟨[⟨0, none, none, none, none⟩], 1⟩) :=
  (c10_null_overwrites "000000000000000000000000" 0
    ⟨[⟨0, some "Widget", none, some 5, some true⟩], 1⟩
    ⟨some none, none, some none, some none⟩
    ⟨0, some "Widget", none, some 5, some true⟩
    rfl rfl rfl rfl rfl).2.1

end StoreApi

namespace StoreApi

theorem c8_list_sorted_witness :
    retrieve_products ⟨[], 0⟩ = [] :=
  (c8_list_sorted ⟨[], 0⟩).2.2

end StoreApi
